import Mathlib

/-!
Shallow embedding of `src/backend_api.py` (token rotation, verification-token
consumption, token revocation, and the rate-limit middleware), together with a
model of the external key-value store (Redis) at the interface the spec
describes (§6: `setWithExpiry`, `get`, `delete`, `increment`, `expire`).

Conventions of the embedding:
* Time is an explicit natural-number parameter `t`; a stored entry carries an
  optional absolute expiry deadline and is live while `t < deadline`.
* The nondeterministic token generator `secrets.token_urlsafe` is embedded as
  an explicit `freshToken` parameter; entropy-freshness becomes an explicit
  hypothesis where a theorem needs it.
* `redis_client` may be `None` after failed connection retries
  (`get_redis_connection` returns `None`); handlers that guard on
  `if redis_client:` take an `Option Redis`.
* Handlers return their HTTP-level outcome as a value (`Res.ok`,
  `Res.httpError`, `Res.exn` for a propagating exception); side effects on the
  store and the relational database are returned as updated states, and the
  committed effects are also recorded as an `Op` trace where a claim is about
  ordering of effects.
-/

namespace BackendApi

/-- Modelled from the spec: one record of the external KeyValueStore (§6),
a string value plus an optional absolute expiry deadline (`none` = no TTL). -/
structure Entry where
  value : String
  expiry : Option Nat
deriving DecidableEq

/-- Modelled from the spec: the external KeyValueStore (§6), keys to records. -/
abbrev Redis := String → Option Entry

/-- The empty store. -/
def remp : Redis := fun _ => none

/-- Raw single-key write. -/
def rset (st : Redis) (k : String) (e : Entry) : Redis :=
  fun q => if q = k then some e else st q

/-- Modelled from the spec: `delete(key)` of the KeyValueStore (§6). -/
def rdel (st : Redis) (k : String) : Redis :=
  fun q => if q = k then none else st q

/-- An entry is live at time `t` while `t` is strictly before its deadline. -/
def live (t : Nat) (e : Entry) : Bool :=
  match e.expiry with
  | none => true
  | some d => t < d

/-- Lookup returning the whole entry, treating an expired entry as absent. -/
def rgetEntry (st : Redis) (t : Nat) (k : String) : Option Entry :=
  match st k with
  | some e => if live t e then some e else none
  | none => none

/-- Modelled from the spec: `get(key)` of the KeyValueStore (§6); an expired
record is absent. -/
def rget (st : Redis) (t : Nat) (k : String) : Option String :=
  (rgetEntry st t k).map Entry.value

/-- Modelled from the spec: `setWithExpiry(key, value, ttlSeconds)` of the
KeyValueStore (§6); `ttl = 0` leaves a record with zero remaining TTL, i.e.
already expired for every lookup at or after `t` (spec §9 describes the
revocation path in exactly these terms). -/
def setex (st : Redis) (t : Nat) (k : String) (ttl : Nat) (v : String) : Redis :=
  rset st k ⟨v, some (t + ttl)⟩

/-- Decimal digit value of a character, if it is a digit. -/
def digitVal? (c : Char) : Option Nat :=
  if '0' ≤ c ∧ c ≤ '9' then some (c.toNat - '0'.toNat) else none

/-- Accumulating decimal parse over a character list; fails on a non-digit. -/
def decAux : List Char → Nat → Option Nat
  | [], acc => some acc
  | c :: cs, acc =>
    match digitVal? c with
    | some d => decAux cs (acc * 10 + d)
    | none => none

/-- Model of Python `int(s)` on the canonical nonnegative decimal strings the
rate limiter stores (every value it writes is `toString n`); on any other
string the model fails, matching the `ValueError` that `int` raises on
non-numeric input. -/
def pyInt? (s : String) : Option Nat :=
  match s.data with
  | [] => none
  | c :: cs => decAux (c :: cs) 0

/-- Modelled from the spec: `increment(key)` of the KeyValueStore (§6), with
Redis `INCR` semantics: an absent or expired key is created at 1 with no TTL;
a live key's numeric value is incremented in place, keeping its TTL; a live
non-numeric value is an error (`none`). -/
def rincr (st : Redis) (t : Nat) (k : String) : Option Redis :=
  match rgetEntry st t k with
  | some e =>
    match pyInt? e.value with
    | some n => some (rset st k ⟨toString (n + 1), e.expiry⟩)
    | none => none
  | none => some (rset st k ⟨"1", none⟩)

/-- Modelled from the spec: `expire(key, ttlSeconds)` of the KeyValueStore
(§6): re-set a live key's deadline to `t + ttl`; no effect on an absent or
expired key. -/
def rexpire (st : Redis) (t : Nat) (k : String) (ttl : Nat) : Redis :=
  match rgetEntry st t k with
  | some e => rset st k ⟨e.value, some (t + ttl)⟩
  | none => st

/-- Key prefix `REDIS_REFRESH_KEY = "refresh:{}"` applied to a token. -/
def refreshKey (token : String) : String := "refresh:" ++ token

/-- Key prefix `REDIS_VERIFY_KEY = "verify:{}"` applied to a token. -/
def verifyKey (token : String) : String := "verify:" ++ token

/-- Key prefix `REDIS_RATE_LIMIT_KEY = "ratelimit:{}"` applied to a client IP. -/
def rateLimitKey (ip : String) : String := "ratelimit:" ++ ip

/-- Environment default `REFRESH_TOKEN_EXPIRE_DAYS` (line 38 of the source). -/
def REFRESH_TOKEN_EXPIRE_DAYS : Nat := 7

/-- One store / database effect, for claims about the order of effects. -/
inductive Op where
  | setexOp (key : String) (ttl : Nat) (v : String)
  | deleteOp (key : String)
  | dbUpdateOp (email : String) (hashed : String)
  | dbCommitOp
deriving DecidableEq

/-- Result of `rotate_refresh_token`: the updated store, the returned token,
and the store operations in the order the source performs them. -/
structure RotateOut where
  store : Redis
  newToken : String
  ops : List Op

/-- Embedding of `rotate_refresh_token` (source lines 68-72): write the new
token's record as "valid" with the configured TTL, then delete the old
token's record. `freshToken` stands for `secrets.token_urlsafe(32)`. -/
def rotate_refresh_token (st : Redis) (t : Nat) (freshToken old_token : String) : RotateOut :=
  let new_token := freshToken
  ⟨rdel (setex st t (refreshKey new_token) (REFRESH_TOKEN_EXPIRE_DAYS * 86400) "valid")
      (refreshKey old_token),
    new_token,
    [Op.setexOp (refreshKey new_token) (REFRESH_TOKEN_EXPIRE_DAYS * 86400) "valid",
      Op.deleteOp (refreshKey old_token)]⟩

/-- Modelled from the spec: `validate(token)` of RefreshTokenManager (§4.2) is
declared but not implemented in `src/backend_api.py`; per the spec it looks up
the record and returns invalid if it is absent, revoked, or past expiry
(expiry is already enforced by `rget`). -/
def validate_refresh_token (st : Redis) (t : Nat) (token : String) : Bool :=
  match rget st t (refreshKey token) with
  | some v => if v = "revoked" then false else true
  | none => false

/-- Embedding of `revoke_token` (source lines 125-128): overwrite the token's
record with value "revoked" and zero remaining TTL, and answer the fixed
success message. -/
def revoke_token (st : Redis) (t : Nat) (token : String) : Redis × String :=
  (setex st t (refreshKey token) 0 "revoked", "Token revoked successfully.")

/-- Embedding of `generate_verification_token` (source lines 75-76); `fresh`
stands for `secrets.token_urlsafe(32)`. -/
def generate_verification_token (fresh : String) : String := fresh

/-- Embedding of `store_email_verification_token` (source lines 78-80): write
token -> email with a 24-hour TTL when the client handle is present. -/
def store_email_verification_token (rc : Option Redis) (t : Nat) (email token : String) :
    Option Redis :=
  match rc with
  | some st => some (setex st t (verifyKey token) 86400 email)
  | none => none

/-- Embedding of `get_email_verification_token` (source lines 82-85): look the
token up when the client handle is present, else `None`. -/
def get_email_verification_token (rc : Option Redis) (t : Nat) (token : String) :
    Option String :=
  match rc with
  | some st => rget st t (verifyKey token)
  | none => none

/-- The relational users table at the interface the handlers use: an email is
mapped to its stored password hash when such a user exists. -/
abbrev DB := String → Option String

/-- Effect of `UPDATE users SET password = ... WHERE email = ...`: rows whose
email matches get the new hash; with no matching row nothing changes. -/
def dbUpdatePassword (db : DB) (email hashed : String) : DB :=
  fun e => if e = email then (db e).map (fun _ => hashed) else db e

/-- HTTP-level outcome of a handler: normal return, an `HTTPException`, or a
propagating non-HTTP exception. -/
inductive Res where
  | ok (message : String)
  | httpError (code : Nat) (detail : String)
  | exn
deriving DecidableEq

/-- Result of `forgot_password`: updated store handle, the addressee and body
of the queued email, and the HTTP response message. -/
structure ForgotOut where
  rc : Option Redis
  emailTo : String
  emailBody : String
  message : String

/-- Embedding of `forgot_password` (source lines 105-110): generate a token,
store it against the email, queue the reset email, and always answer the same
fixed message. -/
def forgot_password (rc : Option Redis) (t : Nat) (email freshToken : String) : ForgotOut :=
  let reset_token := generate_verification_token freshToken
  ⟨store_email_verification_token rc t email reset_token,
    email,
    "Click here to reset your password: https://yourdomain.com/reset-password?token="
      ++ reset_token,
    "Password reset email sent."⟩

/-- Result of `reset_password`: updated store handle, updated users table,
HTTP-level outcome, and the committed effects in order. -/
structure ResetOut where
  rc : Option Redis
  db : DB
  result : Res
  ops : List Op

/-- Embedding of `reset_password` (source lines 112-122). The lookup's
`if redis_client:` guard is inlined as the outer match; `if not email:` is
Python falsiness, so both an absent record and an empty-string email yield the
400 error. `dbCommitOk` models whether `cursor.execute`/`conn.commit`
succeeds; when it raises, the exception propagates before the store delete is
reached, so neither a committed row change nor a token deletion happens. -/
def reset_password (rc : Option Redis) (t : Nat) (token new_password : String)
    (hash : String → String) (db : DB) (dbCommitOk : Bool) : ResetOut :=
  match rc with
  | none => ⟨none, db, Res.httpError 400 "Invalid or expired token.", []⟩
  | some st =>
    match rget st t (verifyKey token) with
    | none => ⟨some st, db, Res.httpError 400 "Invalid or expired token.", []⟩
    | some email =>
      if email.data.isEmpty then
        ⟨some st, db, Res.httpError 400 "Invalid or expired token.", []⟩
      else
        let hashed_password := hash new_password
        if dbCommitOk then
          ⟨some (rdel st (verifyKey token)),
            dbUpdatePassword db email hashed_password,
            Res.ok "Password reset successful.",
            [Op.dbUpdateOp email hashed_password, Op.dbCommitOp,
              Op.deleteOp (verifyKey token)]⟩
        else ⟨some st, db, Res.exn, []⟩

/-- Whether the rate-limit middleware admitted the request to `call_next` or
rejected it with the 429 `HTTPException`. -/
inductive RateResult where
  | admitted
  | rejected
deriving DecidableEq

/-- Shared tail of the admitted path of the middleware (source lines 138-139):
`INCR` then `EXPIRE 60`; `none` if `INCR` hits a live non-numeric value. -/
def incrAndExpire (st : Redis) (t : Nat) (key : String) : Option (Option Redis × RateResult) :=
  match rincr st t key with
  | some st2 => some (some (rexpire st2 t key 60), RateResult.admitted)
  | none => none

/-- Embedding of `rate_limit_middleware` (source lines 131-140). With no
client handle the check is skipped entirely (fail-open). Otherwise the stored
count is read; `if request_count and int(request_count) > 100:` rejects with
429 — the `and` is Python truthiness, so an absent or empty value falls
through — and an admitted request is counted by `INCR` followed by
`EXPIRE key 60`. A `ValueError` from `int` is an erroring run (`none`). -/
def rate_limit_middleware (rc : Option Redis) (t : Nat) (ip : String) :
    Option (Option Redis × RateResult) :=
  match rc with
  | none => some (none, RateResult.admitted)
  | some st =>
    match rget st t (rateLimitKey ip) with
    | some s =>
      if s.data.isEmpty then incrAndExpire st t (rateLimitKey ip)
      else
        match pyInt? s with
        | none => none
        | some n =>
          if n > 100 then some (some st, RateResult.rejected)
          else incrAndExpire st t (rateLimitKey ip)
    | none => incrAndExpire st t (rateLimitKey ip)

/-- Run `n` consecutive requests from the same client at time `t`, collecting
each request's admit/reject outcome in order. -/
def runRequests (st : Redis) (t : Nat) (ip : String) : Nat → Option (Redis × List RateResult)
  | 0 => some (st, [])
  | n + 1 =>
    match runRequests st t ip n with
    | some (st1, rs) =>
      match rate_limit_middleware (some st1) t ip with
      | some (some st2, r) => some (st2, rs ++ [r])
      | _ => none
    | none => none

/-- States of the store reachable from empty by rate-limit middleware calls,
at arbitrary times and from arbitrary clients. -/
inductive Reach : Redis → Prop where
  | init : Reach remp
  | step (st : Redis) (t : Nat) (ip : String) (st2 : Redis) (r : RateResult) :
      Reach st → rate_limit_middleware (some st) t ip = some (some st2, r) → Reach st2

/-- Invariant of reachable stores: every stored value is a decimal counter of
at most 101. -/
def counterBounded (st : Redis) : Prop :=
  ∀ k e, st k = some e → ∃ n, n ≤ 101 ∧ e.value = toString n

theorem pyInt_toString : ∀ n < 102, pyInt? (toString n) = some n := by decide

theorem toString_nonempty : ∀ n < 102, (toString n).data.isEmpty = false := by decide

theorem rset_self (st : Redis) (k : String) (e : Entry) : rset st k e k = some e := by
  simp [rset]

theorem rset_other (st : Redis) (k : String) (e : Entry) (q : String) (h : q ≠ k) :
    rset st k e q = st q := by
  simp [rset, h]

theorem rgetEntry_none_of_rget (st : Redis) (t : Nat) (k : String)
    (h : rget st t k = none) : rgetEntry st t k = none := by
  unfold rget at h
  exact Option.map_eq_none'.mp h

theorem rgetEntry_some (st : Redis) (t : Nat) (k : String) (e : Entry)
    (h : rgetEntry st t k = some e) : st k = some e ∧ live t e = true := by
  unfold rgetEntry at h
  split at h
  next e0 heq =>
    split at h
    next hl =>
      cases h
      exact ⟨heq, hl⟩
    next hl => simp at h
  next heq => simp at h

theorem rgetEntry_of_live (st : Redis) (t : Nat) (k : String) (e : Entry)
    (h : st k = some e) (hl : live t e = true) : rgetEntry st t k = some e := by
  unfold rgetEntry
  simp only [h, hl, if_true]

theorem rget_eq_value (st : Redis) (t : Nat) (k : String) (s : String)
    (h : rget st t k = some s) : ∃ e, rgetEntry st t k = some e ∧ e.value = s := by
  unfold rget at h
  cases hE : rgetEntry st t k with
  | none => rw [hE] at h; exact absurd h (by simp)
  | some e => rw [hE] at h; exact ⟨e, rfl, by simpa using h⟩

theorem rexpire_of_live (st : Redis) (t : Nat) (k : String) (ttl : Nat) (e : Entry)
    (h : st k = some e) (hl : live t e = true) :
    rexpire st t k ttl = rset st k ⟨e.value, some (t + ttl)⟩ := by
  unfold rexpire
  simp only [rgetEntry_of_live st t k e h hl]

theorem middleware_fresh (st : Redis) (t : Nat) (ip : String)
    (h : rget st t (rateLimitKey ip) = none) :
    ∃ st2, rate_limit_middleware (some st) t ip = some (some st2, RateResult.admitted) ∧
      st2 (rateLimitKey ip) = some ⟨"1", some (t + 60)⟩ ∧
      ∀ q, q ≠ rateLimitKey ip → st2 q = st q := by
  have hE := rgetEntry_none_of_rget st t (rateLimitKey ip) h
  have hx := rexpire_of_live (rset st (rateLimitKey ip) ⟨"1", none⟩) t (rateLimitKey ip) 60
    ⟨"1", none⟩ (rset_self ..) rfl
  refine ⟨rset (rset st (rateLimitKey ip) ⟨"1", none⟩) (rateLimitKey ip) ⟨"1", some (t + 60)⟩,
    ?_, rset_self .., ?_⟩
  · simp [rate_limit_middleware, h, incrAndExpire, rincr, hE, hx]
  · intro q hq
    rw [rset_other _ _ _ _ hq, rset_other _ _ _ _ hq]

theorem middleware_over (st : Redis) (t : Nat) (ip : String) (s : String) (n : Nat)
    (hg : rget st t (rateLimitKey ip) = some s)
    (hp : pyInt? s = some n) (hn : 100 < n) :
    rate_limit_middleware (some st) t ip = some (some st, RateResult.rejected) := by
  have hne : s.data.isEmpty = false := by
    unfold pyInt? at hp
    cases hd : s.data with
    | nil => rw [hd] at hp; exact absurd hp (by simp)
    | cons c cs => rfl
  simp [rate_limit_middleware, hg, hne, hp, hn]

theorem middleware_under_entry (st : Redis) (t : Nat) (ip : String) (e0 : Entry) (n : Nat)
    (hE : rgetEntry st t (rateLimitKey ip) = some e0)
    (hval : e0.value = toString n) (hn : n ≤ 100) :
    ∃ st2, rate_limit_middleware (some st) t ip = some (some st2, RateResult.admitted) ∧
      st2 (rateLimitKey ip) = some ⟨toString (n + 1), some (t + 60)⟩ ∧
      ∀ q, q ≠ rateLimitKey ip → st2 q = st q := by
  have hl0 : live t e0 = true := (rgetEntry_some _ _ _ _ hE).2
  have hg : rget st t (rateLimitKey ip) = some (toString n) := by
    unfold rget
    rw [hE]
    simp [hval]
  have hne : (toString n).data.isEmpty = false := toString_nonempty n (by omega)
  have hp : pyInt? (toString n) = some n := pyInt_toString n (by omega)
  have hp0 : pyInt? e0.value = some n := by rw [hval]; exact hp
  have hlset : live t (⟨toString (n + 1), e0.expiry⟩ : Entry) = true := hl0
  have hx := rexpire_of_live (rset st (rateLimitKey ip) ⟨toString (n + 1), e0.expiry⟩) t
    (rateLimitKey ip) 60 ⟨toString (n + 1), e0.expiry⟩ (rset_self ..) hlset
  refine ⟨rset (rset st (rateLimitKey ip) ⟨toString (n + 1), e0.expiry⟩) (rateLimitKey ip)
    ⟨toString (n + 1), some (t + 60)⟩, ?_, rset_self .., ?_⟩
  · have hn' : ¬ n > 100 := by omega
    simp [rate_limit_middleware, hg, hne, hp, hn', incrAndExpire, rincr, hE, hp0, hx]
  · intro q hq
    rw [rset_other _ _ _ _ hq, rset_other _ _ _ _ hq]

theorem runRequests_succ (st : Redis) (t : Nat) (ip : String) (n : Nat) (stN : Redis)
    (rs : List RateResult) (st2 : Redis) (r : RateResult)
    (h1 : runRequests st t ip n = some (stN, rs))
    (h2 : rate_limit_middleware (some stN) t ip = some (some st2, r)) :
    runRequests st t ip (n + 1) = some (st2, rs ++ [r]) := by
  simp only [runRequests, h1, h2]

theorem runRequests_spec (st : Redis) (t : Nat) (ip : String)
    (h : rget st t (rateLimitKey ip) = none) :
    ∀ N, N ≤ 101 →
      ∃ stN, runRequests st t ip N = some (stN, List.replicate N RateResult.admitted) ∧
        (N = 0 → stN = st) ∧
        (1 ≤ N → stN (rateLimitKey ip) = some ⟨toString N, some (t + 60)⟩) := by
  intro N
  induction N with
  | zero => exact fun _ => ⟨st, rfl, fun _ => rfl, fun h0 => absurd h0 (by omega)⟩
  | succ N ih =>
    intro hN
    obtain ⟨stN, hrun, h0, h1⟩ := ih (by omega)
    by_cases hz : N = 0
    · subst hz
      rw [h0 rfl] at hrun
      obtain ⟨st2, hmw, hkey, -⟩ := middleware_fresh st t ip h
      refine ⟨st2, ?_, fun hc => absurd hc (by omega), fun _ => ?_⟩
      · rw [runRequests_succ st t ip 0 st _ st2 _ hrun hmw]
        simp
      · rw [hkey, show (toString (0 + 1 : Nat)) = "1" by decide]
    · have h1' := h1 (by omega)
      have hE := rgetEntry_of_live stN t (rateLimitKey ip) _ h1' (by simp [live])
      obtain ⟨st2, hmw, hkey, -⟩ := middleware_under_entry stN t ip _ N hE rfl (by omega)
      refine ⟨st2, ?_, fun hc => absurd hc (by omega), fun _ => hkey⟩
      rw [runRequests_succ st t ip N stN _ st2 _ hrun hmw, List.replicate_succ']

theorem runRequests_blocked (st : Redis) (t : Nat) (ip : String)
    (h : rget st t (rateLimitKey ip) = none) :
    ∃ stF, runRequests st t ip 102 =
        some (stF, List.replicate 101 RateResult.admitted ++ [RateResult.rejected]) ∧
      stF (rateLimitKey ip) = some ⟨toString 101, some (t + 60)⟩ := by
  obtain ⟨stN, hrun, -, h1⟩ := runRequests_spec st t ip h 101 (le_refl _)
  have h1' := h1 (by omega)
  have hE := rgetEntry_of_live stN t (rateLimitKey ip) _ h1' (by simp [live])
  have hg : rget stN t (rateLimitKey ip) = some (toString 101) := by
    unfold rget
    rw [hE]
    rfl
  have hmw := middleware_over stN t ip (toString 101) 101 hg
    (pyInt_toString 101 (by omega)) (by omega)
  refine ⟨stN, ?_, h1'⟩
  exact runRequests_succ st t ip 101 stN _ stN _ hrun hmw

theorem middleware_preserves_bound (st : Redis) (t : Nat) (ip : String) (st2 : Redis)
    (r : RateResult) (hinv : counterBounded st)
    (h : rate_limit_middleware (some st) t ip = some (some st2, r)) :
    counterBounded st2 := by
  cases hg : rget st t (rateLimitKey ip) with
  | none =>
    obtain ⟨st2', hmw, hkey, hframe⟩ := middleware_fresh st t ip hg
    rw [hmw] at h
    simp only [Option.some.injEq, Prod.mk.injEq] at h
    obtain ⟨h1, h2⟩ := h
    subst h1
    intro k e hk
    by_cases hke : k = rateLimitKey ip
    · subst hke
      rw [hkey] at hk
      cases hk
      exact ⟨1, by omega, show ("1" : String) = toString 1 by decide⟩
    · rw [hframe k hke] at hk
      exact hinv k e hk
  | some s =>
    obtain ⟨e0, hE, hv⟩ := rget_eq_value st t _ s hg
    obtain ⟨hst0, -⟩ := rgetEntry_some _ _ _ _ hE
    obtain ⟨n, hn, hval⟩ := hinv _ e0 hst0
    by_cases hcap : n ≤ 100
    · obtain ⟨st2', hmw, hkey, hframe⟩ := middleware_under_entry st t ip e0 n hE hval hcap
      rw [hmw] at h
      simp only [Option.some.injEq, Prod.mk.injEq] at h
      obtain ⟨h1, h2⟩ := h
      subst h1
      intro k e hk
      by_cases hke : k = rateLimitKey ip
      · subst hke
        rw [hkey] at hk
        cases hk
        exact ⟨n + 1, by omega, rfl⟩
      · rw [hframe k hke] at hk
        exact hinv k e hk
    · have hp : pyInt? s = some n := by
        rw [← hv, hval]
        exact pyInt_toString n (by omega)
      have hmw := middleware_over st t ip s n hg hp (by omega)
      rw [hmw] at h
      simp only [Option.some.injEq, Prod.mk.injEq] at h
      obtain ⟨h1, h2⟩ := h
      subst h1
      exact hinv

theorem reach_counterBounded (st : Redis) (h : Reach st) : counterBounded st := by
  induction h with
  | init =>
    intro k e hk
    simp [remp] at hk
  | step st t ip st2 r hre hmw ih => exact middleware_preserves_bound st t ip st2 r ih hmw

theorem rincr_some (st : Redis) (t : Nat) (k : String) (st2 : Redis)
    (h : rincr st t k = some st2) :
    ∃ e2, live t e2 = true ∧ st2 = rset st k e2 := by
  unfold rincr at h
  split at h
  next e hEe =>
    split at h
    next n hpn =>
      refine ⟨⟨toString (n + 1), e.expiry⟩, (rgetEntry_some _ _ _ _ hEe).2, ?_⟩
      simp only [Option.some.injEq] at h
      exact h.symm
    next hpn => simp at h
  next hEe =>
    refine ⟨⟨"1", none⟩, rfl, ?_⟩
    simp only [Option.some.injEq] at h
    exact h.symm

theorem incrAndExpire_some (st : Redis) (t : Nat) (k : String) (rc2 : Option Redis)
    (r : RateResult) (h : incrAndExpire st t k = some (rc2, r)) :
    r = RateResult.admitted ∧
    ∃ st2 v, rc2 = some st2 ∧ st2 k = some ⟨v, some (t + 60)⟩ := by
  unfold incrAndExpire at h
  split at h
  next st2' heq =>
    simp only [Option.some.injEq, Prod.mk.injEq] at h
    obtain ⟨hrc, hr⟩ := h
    obtain ⟨e2, hl, hst2'⟩ := rincr_some st t k st2' heq
    subst hst2'
    have hx := rexpire_of_live (rset st k e2) t k 60 e2 (rset_self ..) hl
    refine ⟨hr.symm, rexpire (rset st k e2) t k 60, e2.value, hrc.symm, ?_⟩
    rw [hx]
    exact rset_self ..
  next heq => simp at h

theorem middleware_admitted_expiry (st : Redis) (t : Nat) (ip : String) (st2 : Redis)
    (h : rate_limit_middleware (some st) t ip = some (some st2, RateResult.admitted)) :
    ∃ v, st2 (rateLimitKey ip) = some ⟨v, some (t + 60)⟩ := by
  simp only [rate_limit_middleware] at h
  split at h
  next s hg =>
    split at h
    · obtain ⟨-, st2', v, hrc, hkey⟩ := incrAndExpire_some _ _ _ _ _ h
      cases Option.some.inj hrc
      exact ⟨v, hkey⟩
    · split at h
      next hpn => simp at h
      next n hpn =>
        split at h
        · simp at h
        · obtain ⟨-, st2', v, hrc, hkey⟩ := incrAndExpire_some _ _ _ _ _ h
          cases Option.some.inj hrc
          exact ⟨v, hkey⟩
  next hg =>
    obtain ⟨-, st2', v, hrc, hkey⟩ := incrAndExpire_some _ _ _ _ _ h
    cases Option.some.inj hrc
    exact ⟨v, hkey⟩

theorem append_left_cancel (p a b : String) (h : p ++ a = p ++ b) : a = b := by
  apply String.ext
  have hd : (p ++ a).data = (p ++ b).data := congrArg String.data h
  rw [String.data_append, String.data_append] at hd
  exact List.append_cancel_left hd

theorem refreshKey_ne (a b : String) (h : a ≠ b) : refreshKey a ≠ refreshKey b :=
  fun hc => h (append_left_cancel "refresh:" a b hc)

theorem rdel_self (st : Redis) (k : String) : rdel st k k = none := by
  simp [rdel]

theorem rdel_other (st : Redis) (k : String) (q : String) (h : q ≠ k) :
    rdel st k q = st q := by
  simp [rdel, h]

theorem rgetEntry_of_none (st : Redis) (t : Nat) (k : String) (h : st k = none) :
    rgetEntry st t k = none := by
  unfold rgetEntry
  simp only [h]

theorem rget_of_none (st : Redis) (t : Nat) (k : String) (h : st k = none) :
    rget st t k = none := by
  unfold rget
  rw [rgetEntry_of_none st t k h]
  rfl

theorem rget_of_live (st : Redis) (t : Nat) (k : String) (e : Entry) (h : st k = some e)
    (hl : live t e = true) : rget st t k = some e.value := by
  unfold rget
  rw [rgetEntry_of_live st t k e h hl]
  rfl

theorem rget_of_dead (st : Redis) (t : Nat) (k : String) (e : Entry) (h : st k = some e)
    (hl : live t e = false) : rget st t k = none := by
  unfold rget rgetEntry
  simp [h, hl]

theorem validate_of_rget (st : Redis) (t : Nat) (token v : String)
    (h : rget st t (refreshKey token) = some v) :
    validate_refresh_token st t token = (if v = "revoked" then false else true) := by
  unfold validate_refresh_token
  simp only [h]

theorem validate_of_rget_none (st : Redis) (t : Nat) (token : String)
    (h : rget st t (refreshKey token) = none) :
    validate_refresh_token st t token = false := by
  unfold validate_refresh_token
  simp only [h]

theorem rotate_new_token_state (st : Redis) (t : Nat) (fresh old : String) (h : fresh ≠ old) :
    (rotate_refresh_token st t fresh old).store (refreshKey fresh) =
      some ⟨"valid", some (t + REFRESH_TOKEN_EXPIRE_DAYS * 86400)⟩ ∧
    rget (rotate_refresh_token st t fresh old).store t (refreshKey fresh) = some "valid" ∧
    validate_refresh_token (rotate_refresh_token st t fresh old).store t fresh = true := by
  have hkne := refreshKey_ne fresh old h
  have hkey : (rotate_refresh_token st t fresh old).store (refreshKey fresh) =
      some ⟨"valid", some (t + REFRESH_TOKEN_EXPIRE_DAYS * 86400)⟩ := by
    show rdel (setex st t (refreshKey fresh) (REFRESH_TOKEN_EXPIRE_DAYS * 86400) "valid")
      (refreshKey old) (refreshKey fresh) = _
    rw [rdel_other _ _ _ hkne]
    exact rset_self ..
  have hlive : live t (⟨"valid", some (t + REFRESH_TOKEN_EXPIRE_DAYS * 86400)⟩ : Entry) = true := by
    simp [live, REFRESH_TOKEN_EXPIRE_DAYS]
  have hget := rget_of_live _ t _ _ hkey hlive
  refine ⟨hkey, hget, ?_⟩
  rw [validate_of_rget _ _ _ _ hget]
  simp

/-- Claim C1: for a refresh token `T` stored as valid, rotation with a fresh
token `T'` distinct from `T` returns `T'`, leaves `T'` stored as "valid" (so
the spec-modelled `validate` accepts it), removes the record of `T` (so
`validate` rejects it), and the operation trace writes the new record with
`setex` strictly before deleting the old one. -/
theorem C1_rotation_correct (st : Redis) (t : Nat) (T fresh : String)
    (hvalid : rget st t (refreshKey T) = some "valid")
    (hfresh : fresh ≠ T) :
    (rotate_refresh_token st t fresh T).newToken = fresh ∧
    rget (rotate_refresh_token st t fresh T).store t (refreshKey fresh) = some "valid" ∧
    validate_refresh_token (rotate_refresh_token st t fresh T).store t fresh = true ∧
    rget (rotate_refresh_token st t fresh T).store t (refreshKey T) = none ∧
    validate_refresh_token (rotate_refresh_token st t fresh T).store t T = false ∧
    (rotate_refresh_token st t fresh T).ops =
      [Op.setexOp (refreshKey fresh) (REFRESH_TOKEN_EXPIRE_DAYS * 86400) "valid",
        Op.deleteOp (refreshKey T)] := by
  obtain ⟨-, hget, hval⟩ := rotate_new_token_state st t fresh T hfresh
  have hgone : rget (rotate_refresh_token st t fresh T).store t (refreshKey T) = none := by
    refine rget_of_none _ t _ ?_
    show rdel (setex st t (refreshKey fresh) (REFRESH_TOKEN_EXPIRE_DAYS * 86400) "valid")
      (refreshKey T) (refreshKey T) = none
    exact rdel_self ..
  exact ⟨rfl, hget, hval, hgone, validate_of_rget_none _ _ _ hgone, rfl⟩

/-- Witness for C1 at a concrete store holding a valid token "oldtok". -/
theorem C1_rotation_correct_witness :
    rget (setex remp 0 (refreshKey "oldtok") 3600 "valid") 0 (refreshKey "oldtok") =
      some "valid" ∧
    ("newtok" : String) ≠ "oldtok" ∧
    ((rotate_refresh_token (setex remp 0 (refreshKey "oldtok") 3600 "valid") 0 "newtok"
        "oldtok").newToken = "newtok" ∧
      rget (rotate_refresh_token (setex remp 0 (refreshKey "oldtok") 3600 "valid") 0 "newtok"
        "oldtok").store 0 (refreshKey "newtok") = some "valid" ∧
      validate_refresh_token (rotate_refresh_token (setex remp 0 (refreshKey "oldtok") 3600
        "valid") 0 "newtok" "oldtok").store 0 "newtok" = true ∧
      rget (rotate_refresh_token (setex remp 0 (refreshKey "oldtok") 3600 "valid") 0 "newtok"
        "oldtok").store 0 (refreshKey "oldtok") = none ∧
      validate_refresh_token (rotate_refresh_token (setex remp 0 (refreshKey "oldtok") 3600
        "valid") 0 "newtok" "oldtok").store 0 "oldtok" = false ∧
      (rotate_refresh_token (setex remp 0 (refreshKey "oldtok") 3600 "valid") 0 "newtok"
        "oldtok").ops =
        [Op.setexOp (refreshKey "newtok") (REFRESH_TOKEN_EXPIRE_DAYS * 86400) "valid",
          Op.deleteOp (refreshKey "oldtok")]) :=
  ⟨by decide, by decide,
    C1_rotation_correct (setex remp 0 (refreshKey "oldtok") 3600 "valid") 0 "oldtok" "newtok"
      (by decide) (by decide)⟩

/-- Claim C8: rotation never fails for any old-token input, present in the
store or not: it returns the fresh token and writes its record as "valid"
with the configured refresh TTL of `REFRESH_TOKEN_EXPIRE_DAYS * 86400`
seconds. -/
theorem C8_rotate_without_old (st : Redis) (t : Nat) (fresh old : String)
    (hfresh : fresh ≠ old) :
    (rotate_refresh_token st t fresh old).newToken = fresh ∧
    (rotate_refresh_token st t fresh old).store (refreshKey fresh) =
      some ⟨"valid", some (t + REFRESH_TOKEN_EXPIRE_DAYS * 86400)⟩ ∧
    rget (rotate_refresh_token st t fresh old).store t (refreshKey fresh) = some "valid" ∧
    validate_refresh_token (rotate_refresh_token st t fresh old).store t fresh = true := by
  obtain ⟨hkey, hget, hval⟩ := rotate_new_token_state st t fresh old hfresh
  exact ⟨rfl, hkey, hget, hval⟩

/-- Witness for C8 on the empty store: the old token "absent" has no record. -/
theorem C8_rotate_without_old_witness :
    ("freshtk" : String) ≠ "absent" ∧
    ((rotate_refresh_token remp 5 "freshtk" "absent").newToken = "freshtk" ∧
      (rotate_refresh_token remp 5 "freshtk" "absent").store (refreshKey "freshtk") =
        some ⟨"valid", some (5 + REFRESH_TOKEN_EXPIRE_DAYS * 86400)⟩ ∧
      rget (rotate_refresh_token remp 5 "freshtk" "absent").store 5 (refreshKey "freshtk") =
        some "valid" ∧
      validate_refresh_token (rotate_refresh_token remp 5 "freshtk" "absent").store 5
        "freshtk" = true) :=
  ⟨by decide, C8_rotate_without_old remp 5 "freshtk" "absent" (by decide)⟩

/-- Claim C5: revoking overwrites the record with "revoked" at zero remaining
TTL, so an immediate lookup finds nothing and the spec-modelled `validate`
rejects the token; revoking again — equally a never-issued token, since no
hypothesis constrains the store — returns the same success message and leaves
the store unchanged. -/
theorem C5_revoke_idempotent (st : Redis) (t : Nat) (token : String) :
    (revoke_token st t token).2 = "Token revoked successfully." ∧
    rget (revoke_token st t token).1 t (refreshKey token) = none ∧
    validate_refresh_token (revoke_token st t token).1 t token = false ∧
    (revoke_token (revoke_token st t token).1 t token).2 = "Token revoked successfully." ∧
    ∀ q, (revoke_token (revoke_token st t token).1 t token).1 q = (revoke_token st t token).1 q := by
  have hkey : (revoke_token st t token).1 (refreshKey token) =
      some ⟨"revoked", some (t + 0)⟩ := rset_self ..
  have hdead : live t (⟨"revoked", some (t + 0)⟩ : Entry) = false := by
    simp [live]
  have hget := rget_of_dead _ t _ _ hkey hdead
  refine ⟨rfl, hget, validate_of_rget_none _ _ _ hget, rfl, ?_⟩
  intro q
  show rset ((revoke_token st t token).1) (refreshKey token) ⟨"revoked", some (t + 0)⟩ q = _
  unfold rset
  split
  next hq =>
    rw [hq, hkey]
  next hq => rfl

/-- Claim C7: with the store handle absent (`get_redis_connection` returned
`None`), the rate limiter admits every request (fail-open), the verification
lookup returns nothing, and `reset_password` rejects every token with the 400
error while changing no state (fail-closed). -/
theorem C7_store_unavailable :
    (∀ (t : Nat) (ip : String),
      rate_limit_middleware none t ip = some (none, RateResult.admitted)) ∧
    (∀ (t : Nat) (token : String), get_email_verification_token none t token = none) ∧
    (∀ (t : Nat) (token pw : String) (hash : String → String) (db : DB) (dbok : Bool),
      (reset_password none t token pw hash db dbok).result =
        Res.httpError 400 "Invalid or expired token." ∧
      (reset_password none t token pw hash db dbok).rc = none ∧
      (reset_password none t token pw hash db dbok).db = db) :=
  ⟨fun _ _ => rfl, fun _ _ => rfl, fun _ _ _ _ _ _ => ⟨rfl, rfl, rfl⟩⟩

/-- Claim C9: the `forgot_password` response message is the fixed string
"Password reset email sent." no matter whether the email belongs to a user
in the relational database or to nobody, so the response reveals nothing
about subject existence. -/
theorem C9_uniform_response (db : DB) (e1 e2 : String)
    (h1 : (db e1).isSome = true) (h2 : db e2 = none)
    (rc : Option Redis) (t : Nat) (f1 f2 : String) :
    (forgot_password rc t e1 f1).message = "Password reset email sent." ∧
    (forgot_password rc t e2 f2).message = (forgot_password rc t e1 f1).message :=
  ⟨rfl, rfl⟩

/-- Witness for C9 with a one-user database: "u@example.com" exists,
"ghost@example.com" does not. -/
theorem C9_uniform_response_witness :
    ((fun e => if e = "u@example.com" then some "h" else none : DB) "u@example.com").isSome
      = true ∧
    (fun e => if e = "u@example.com" then some "h" else none : DB) "ghost@example.com"
      = none ∧
    ((forgot_password none 0 "u@example.com" "tk1").message = "Password reset email sent." ∧
      (forgot_password none 0 "ghost@example.com" "tk2").message =
        (forgot_password none 0 "u@example.com" "tk1").message) :=
  ⟨by decide, by decide,
    C9_uniform_response (fun e => if e = "u@example.com" then some "h" else none)
      "u@example.com" "ghost@example.com" (by decide) (by decide) none 0 "tk1" "tk2"⟩

theorem data_isEmpty_false_of_ne (em : String) (hne : em ≠ "") :
    em.data.isEmpty = false := by
  cases hm : em.data with
  | nil => exact absurd (String.ext (by rw [hm])) hne
  | cons c cs => rfl

/-- Claim C2: with the record of token `V` bound to identity `em`, the first
`reset_password` consumes it — it deletes the record, updates exactly `em`'s
password, and answers success — and every later call with the same `V`
answers the 400 error (`TokenNotFound`) with no state change and no identity
acted on. -/
theorem C2_single_use (st : Redis) (t : Nat) (V pw : String) (hash : String → String)
    (db : DB) (em : String)
    (hbound : rget st t (verifyKey V) = some em) (hne : em ≠ "") :
    ((reset_password (some st) t V pw hash db true).rc = some (rdel st (verifyKey V)) ∧
      (reset_password (some st) t V pw hash db true).db = dbUpdatePassword db em (hash pw) ∧
      (reset_password (some st) t V pw hash db true).result =
        Res.ok "Password reset successful.") ∧
    (∀ (pw2 : String) (hash2 : String → String) (db2 : DB) (ok2 : Bool),
      (reset_password (some (rdel st (verifyKey V))) t V pw2 hash2 db2 ok2).result =
        Res.httpError 400 "Invalid or expired token." ∧
      (reset_password (some (rdel st (verifyKey V))) t V pw2 hash2 db2 ok2).rc =
        some (rdel st (verifyKey V)) ∧
      (reset_password (some (rdel st (verifyKey V))) t V pw2 hash2 db2 ok2).db = db2) := by
  have hdata := data_isEmpty_false_of_ne em hne
  have hgone : rget (rdel st (verifyKey V)) t (verifyKey V) = none :=
    rget_of_none _ t _ (rdel_self ..)
  constructor
  · simp [reset_password, hbound, hdata]
  · intro pw2 hash2 db2 ok2
    simp [reset_password, hgone]

/-- Witness for C2 at a concrete store binding "vtok" to "a@example.com". -/
theorem C2_single_use_witness :
    rget (setex remp 0 (verifyKey "vtok") 86400 "a@example.com") 0 (verifyKey "vtok") =
      some "a@example.com" ∧
    ("a@example.com" : String) ≠ "" ∧
    (((reset_password (some (setex remp 0 (verifyKey "vtok") 86400 "a@example.com")) 0 "vtok"
        "npw" (fun s => s) (fun _ => none) true).rc =
        some (rdel (setex remp 0 (verifyKey "vtok") 86400 "a@example.com") (verifyKey "vtok")) ∧
      (reset_password (some (setex remp 0 (verifyKey "vtok") 86400 "a@example.com")) 0 "vtok"
        "npw" (fun s => s) (fun _ => none) true).db =
        dbUpdatePassword (fun _ => none) "a@example.com" ((fun s => s) "npw") ∧
      (reset_password (some (setex remp 0 (verifyKey "vtok") 86400 "a@example.com")) 0 "vtok"
        "npw" (fun s => s) (fun _ => none) true).result =
        Res.ok "Password reset successful.") ∧
    (∀ (pw2 : String) (hash2 : String → String) (db2 : DB) (ok2 : Bool),
      (reset_password (some (rdel (setex remp 0 (verifyKey "vtok") 86400 "a@example.com")
          (verifyKey "vtok"))) 0 "vtok" pw2 hash2 db2 ok2).result =
        Res.httpError 400 "Invalid or expired token." ∧
      (reset_password (some (rdel (setex remp 0 (verifyKey "vtok") 86400 "a@example.com")
          (verifyKey "vtok"))) 0 "vtok" pw2 hash2 db2 ok2).rc =
        some (rdel (setex remp 0 (verifyKey "vtok") 86400 "a@example.com") (verifyKey "vtok")) ∧
      (reset_password (some (rdel (setex remp 0 (verifyKey "vtok") 86400 "a@example.com")
          (verifyKey "vtok"))) 0 "vtok" pw2 hash2 db2 ok2).db = db2)) :=
  ⟨by decide, by decide,
    C2_single_use (setex remp 0 (verifyKey "vtok") 86400 "a@example.com") 0 "vtok" "npw"
      (fun s => s) (fun _ => none) "a@example.com" (by decide) (by decide)⟩

/-- Claim C10: when the token lookup yields no usable identity (absent record
or Python-falsy empty email), `reset_password` raises the 400 error with the
store handle, database, and effect trace untouched; when the database
update/commit fails, the exception propagates with no committed effect and
the verification record still present; and on the success path the trace
deletes the token only after the database commit. -/
theorem C10_consume_frame :
    (∀ (rc : Option Redis) (t : Nat) (V pw : String) (hash : String → String) (db : DB)
        (dbok : Bool),
      get_email_verification_token rc t V = none ∨
        get_email_verification_token rc t V = some "" →
      reset_password rc t V pw hash db dbok =
        ⟨rc, db, Res.httpError 400 "Invalid or expired token.", []⟩) ∧
    (∀ (st : Redis) (t : Nat) (V pw : String) (hash : String → String) (db : DB) (em : String),
      rget st t (verifyKey V) = some em → em ≠ "" →
      reset_password (some st) t V pw hash db false = ⟨some st, db, Res.exn, []⟩) ∧
    (∀ (st : Redis) (t : Nat) (V pw : String) (hash : String → String) (db : DB) (em : String),
      rget st t (verifyKey V) = some em → em ≠ "" →
      (reset_password (some st) t V pw hash db true).ops =
        [Op.dbUpdateOp em (hash pw), Op.dbCommitOp, Op.deleteOp (verifyKey V)]) := by
  refine ⟨?_, ?_, ?_⟩
  · intro rc t V pw hash db dbok h
    cases rc with
    | none => rfl
    | some st =>
      simp only [get_email_verification_token] at h
      cases h with
      | inl h => simp [reset_password, h]
      | inr h => simp [reset_password, h]
  · intro st t V pw hash db em hbound hne
    have hdata := data_isEmpty_false_of_ne em hne
    simp [reset_password, hbound, hdata]
  · intro st t V pw hash db em hbound hne
    have hdata := data_isEmpty_false_of_ne em hne
    simp [reset_password, hbound, hdata]

/-- Witness for C10: conjunct one at an absent store handle, conjuncts two and
three at a store binding "vtok" to "a@example.com". -/
theorem C10_consume_frame_witness :
    reset_password none 3 "vtok" "npw" (fun s => s) (fun _ => none) true =
      ⟨none, fun _ => none, Res.httpError 400 "Invalid or expired token.", []⟩ ∧
    reset_password (some (setex remp 0 (verifyKey "vtok") 86400 "a@example.com")) 0 "vtok"
      "npw" (fun s => s) (fun _ => none) false =
      ⟨some (setex remp 0 (verifyKey "vtok") 86400 "a@example.com"), fun _ => none,
        Res.exn, []⟩ ∧
    (reset_password (some (setex remp 0 (verifyKey "vtok") 86400 "a@example.com")) 0 "vtok"
      "npw" (fun s => s) (fun _ => none) true).ops =
      [Op.dbUpdateOp "a@example.com" ((fun s => s) "npw"), Op.dbCommitOp,
        Op.deleteOp (verifyKey "vtok")] :=
  ⟨C10_consume_frame.1 none 3 "vtok" "npw" (fun s => s) (fun _ => none) true (Or.inl rfl),
    C10_consume_frame.2.1 (setex remp 0 (verifyKey "vtok") 86400 "a@example.com") 0 "vtok"
      "npw" (fun s => s) (fun _ => none) "a@example.com" (by decide) (by decide),
    C10_consume_frame.2.2 (setex remp 0 (verifyKey "vtok") 86400 "a@example.com") 0 "vtok"
      "npw" (fun s => s) (fun _ => none) "a@example.com" (by decide) (by decide)⟩

/-- Claim C3 (amended): because the middleware checks `int(count) > 100`
against the pre-increment count, a client in a fresh window has its first
quota + 1 = 101 requests all admitted, and it is the (quota + 2)-th = 102nd
request in the window that is rejected with the 429 error. -/
theorem C3_effective_quota (st : Redis) (t : Nat) (ip : String)
    (h : rget st t (rateLimitKey ip) = none) :
    (∀ N, N ≤ 101 →
      ∃ stN, runRequests st t ip N = some (stN, List.replicate N RateResult.admitted)) ∧
    (∃ stF, runRequests st t ip 102 =
      some (stF, List.replicate 101 RateResult.admitted ++ [RateResult.rejected])) := by
  constructor
  · intro N hN
    obtain ⟨stN, h1, -, -⟩ := runRequests_spec st t ip h N hN
    exact ⟨stN, h1⟩
  · obtain ⟨stF, h1, -⟩ := runRequests_blocked st t ip h
    exact ⟨stF, h1⟩

/-- Witness for C3 from the empty store at time 0 for client "A". -/
theorem C3_effective_quota_witness :
    (∀ N, N ≤ 101 →
      ∃ stN, runRequests remp 0 "A" N = some (stN, List.replicate N RateResult.admitted)) ∧
    (∃ stF, runRequests remp 0 "A" 102 =
      some (stF, List.replicate 101 RateResult.admitted ++ [RateResult.rejected])) :=
  C3_effective_quota remp 0 "A" rfl

/-- Counterexample to C3 as stated: with quota 100, the (quota + 1)-th = 101st
request of client "A" within one window from a fresh store is admitted — all
101 outcomes are `admitted` — not rejected as the claim requires. -/
theorem C3_counterexample_101st_admitted :
    ∃ stN, runRequests remp 0 "A" 101 = some (stN, List.replicate 101 RateResult.admitted) := by
  obtain ⟨stN, h1, -, -⟩ := runRequests_spec remp 0 "A" rfl 101 (by omega)
  exact ⟨stN, h1⟩

/-- Claim C4 (amended): over every store reachable from empty by middleware
requests, each stored rate counter is a decimal numeral of value at most
quota + 1 = 101 — the counter can exceed the quota of 100 by exactly one via
an admitted increment — and any request that reads a count above 100 is
rejected without a further increment (the store is returned unchanged). -/
theorem C4_counter_bound (st : Redis) (hreach : Reach st) :
    (∀ k e, st k = some e → ∃ n, n ≤ 101 ∧ e.value = toString n) ∧
    (∀ (t : Nat) (ip : String) (s : String) (n : Nat),
      rget st t (rateLimitKey ip) = some s → pyInt? s = some n → 100 < n →
      rate_limit_middleware (some st) t ip = some (some st, RateResult.rejected)) :=
  ⟨reach_counterBounded st hreach,
    fun t ip s n hg hp hn => middleware_over st t ip s n hg hp hn⟩

/-- Witness for C4 at the state reached by one request from the empty store:
its stored counter "1" is a numeral of value at most 101. -/
theorem C4_counter_bound_witness :
    ∃ n, n ≤ 101 ∧ ("1" : String) = toString n := by
  have hm : rate_limit_middleware (some remp) 0 "A" =
      some (some (rexpire (rset remp (rateLimitKey "A") ⟨"1", none⟩) 0 (rateLimitKey "A") 60),
        RateResult.admitted) := rfl
  have hr : Reach (rexpire (rset remp (rateLimitKey "A") ⟨"1", none⟩) 0 (rateLimitKey "A") 60) :=
    Reach.step remp 0 "A" _ RateResult.admitted Reach.init hm
  exact (C4_counter_bound _ hr).1 (rateLimitKey "A") ⟨"1", some 60⟩ (by decide)

/-- Counterexample to C4 as stated: after 101 requests from the empty store
the stored counter for client "A" reads 101, strictly above the quota of 100,
yet every one of the 101 requests — including the increment from 100 to
101 — was admitted, none rejected. -/
theorem C4_counterexample_quota_exceeded :
    ∃ stF, runRequests remp 0 "A" 101 = some (stF, List.replicate 101 RateResult.admitted) ∧
      rget stF 0 (rateLimitKey "A") = some "101" := by
  obtain ⟨stF, h1, -, h2⟩ := runRequests_spec remp 0 "A" rfl 101 (by omega)
  have h2' := h2 (by omega)
  refine ⟨stF, h1, ?_⟩
  have := rget_of_live stF 0 (rateLimitKey "A") _ h2' (by simp [live])
  rw [this]
  rw [show (toString (101 : Nat)) = "101" by decide]

/-- Claim C6 (amended): the middleware runs `EXPIRE key 60` after the
increment of every admitted request, not only the first of a fresh window:
after any admitted request at time `t` the client's window deadline is
exactly `t + 60`, so activity keeps extending the window. -/
theorem C6_expire_every_admit (st : Redis) (t : Nat) (ip : String) (st2 : Redis)
    (h : rate_limit_middleware (some st) t ip = some (some st2, RateResult.admitted)) :
    ∃ v, st2 (rateLimitKey ip) = some ⟨v, some (t + 60)⟩ :=
  middleware_admitted_expiry st t ip st2 h

/-- Witness for C6 at the first request on the empty store. -/
theorem C6_expire_every_admit_witness :
    ∃ v, (rexpire (rset remp (rateLimitKey "A") ⟨"1", none⟩) 0 (rateLimitKey "A") 60)
      (rateLimitKey "A") = some ⟨v, some (0 + 60)⟩ :=
  C6_expire_every_admit remp 0 "A" _ rfl

/-- Counterexample to C6 as stated: client "A"'s first request at time 0 sets
the window deadline to 60, and the second admitted request at time 30 — inside
the same window — re-sets the deadline to 90 instead of leaving it at 60. -/
theorem C6_counterexample_deadline_moved :
    ∃ st1 st2,
      rate_limit_middleware (some remp) 0 "A" = some (some st1, RateResult.admitted) ∧
      st1 (rateLimitKey "A") = some ⟨"1", some 60⟩ ∧
      rate_limit_middleware (some st1) 30 "A" = some (some st2, RateResult.admitted) ∧
      st2 (rateLimitKey "A") = some ⟨"2", some 90⟩ := by
  refine ⟨_, _, rfl, ?_, rfl, ?_⟩ <;> decide

end BackendApi
